import Mathlib

/-!
Verification of the flow-graph editing engine in
src/app/(protected)/dashboard/flow.tsx.

The embedding models the data carried by the component state: the node and
edge collections, the snapshot history with its cursor, the shape registry
(getDefaultHandlesForShape), the mutation handlers reachable through the
custom-event bus (handleDeleteNode, handleChangeNodeType), onConnect with
the reactflow addEdge helper, undo and redo, the save/load projection used
for localStorage persistence, and the deduplicating history effect that
runs after every nodes/edges change.

Conventions of the embedding:
- TS strings are Lean String; a missing or null string field that the code
  only ever probes for JS falsiness is modelled as the empty string; fields
  whose absence is probed with Array.isArray or an undefined check are
  modelled as Option.
- the nanoid() draws are nondeterministic in the code, so every operation
  that may draw one takes the drawn value as an explicit argument
  (fid for a fresh node or edge id, fr for the id drawn inside
  getDefaultHandlesForShape when the node id is empty).
- positions are opaque coordinate pairs; the engine never computes with
  them, so the coordinate carrier is Int.
- the JSON.stringify equality used by the history deduplication is
  modelled as structural equality on the record types, which have a fixed
  field order.
-/

namespace FlowEd

/-- The reactflow Position enum used by handle records. -/
inductive HandlePos where
  | top
  | bottom
  | left
  | right
deriving DecidableEq, Repr

/-- One connection point, as stored in data.customHandles: the TS record
has fields type, position, id and style; the style objects occurring in
the source only ever carry a top or a left percentage, modelled as two
Option fields. -/
structure CHandle where
  type : String
  position : HandlePos
  id : String
  styleTop : Option String
  styleLeft : Option String
deriving DecidableEq, Repr

/-- A 2D coordinate; the engine treats positions as opaque data. -/
structure Pos where
  x : Int
  y : Int
deriving DecidableEq, Repr

/-- The COLORS palette constant. -/
def COLORS : List String :=
  ["#2563eb",
   "#16a34a", "#dc2626", "#ca8a04",
   "#9333ea", "#0891b2", "#ea580c", "#be185d"]

/-- The AVAILABLE_SHAPES constant. -/
def AVAILABLE_SHAPES : List String := ["rectangle", "circle"]

/-- baseId computed at the top of getDefaultHandlesForShape:
nodeId when truthy, otherwise a fresh nanoid draw fr. -/
def baseIdOf (nodeId fr : String) : String :=
  if nodeId = "" then fr else nodeId

/-- getDefaultHandlesForShape from flow.tsx lines 91-109: the shape
registry mapping a shape tag to its default connection points.  fr is the
nanoid draw used when nodeId is empty. -/
def getDefaultHandlesForShape (shapeType nodeId fr : String) : List CHandle :=
  let baseId := baseIdOf nodeId fr
  if shapeType = "rectangle" then
    [⟨"target", .left, baseId ++ "-left-target", some "50%", none⟩,
     ⟨"source", .right, baseId ++ "-right-source", some "50%", none⟩]
  else if shapeType = "circle" then
    [⟨"target", .top, baseId ++ "-top-target", none, some "50%"⟩,
     ⟨"source", .bottom, baseId ++ "-bottom-source", none, some "50%"⟩,
     ⟨"target", .left, baseId ++ "-left-target", some "50%", none⟩,
     ⟨"source", .right, baseId ++ "-right-source", some "50%", none⟩]
  else
    []

/-- The NodeData interface: label, nodeCategory, color, content and
customHandles.  Every constructor of live nodes in the component
(createNewNode, the load effect, handleChangeNodeType) assigns the
customHandles field, so it is carried as a plain list on live nodes. -/
structure NodeData where
  label : String
  nodeCategory : String
  color : String
  content : String
  customHandles : List CHandle
deriving DecidableEq, Repr

/-- A live reactflow node as the component uses it: id, type tag,
position and data. -/
structure FlowNode where
  id : String
  type : String
  position : Pos
  data : NodeData
deriving DecidableEq, Repr

/-- The fixed edge style record: stroke color and stroke width. -/
structure EdgeStyle where
  stroke : String
  strokeWidth : Int
deriving DecidableEq, Repr

/-- A live reactflow edge as the component uses it. -/
structure FlowEdge where
  id : String
  source : String
  target : String
  sourceHandle : Option String
  targetHandle : Option String
  type : String
  animated : Bool
  style : EdgeStyle
deriving DecidableEq, Repr

/-- One history entry, the FlowState interface of the source: a pair of
node and edge sequences. -/
structure Graph where
  nodes : List FlowNode
  edges : List FlowEdge
deriving DecidableEq, Repr

/-- The component state relevant to the engine: the live node and edge
collections, the history entries and the history cursor currentStep. -/
structure FlowState where
  nodes : List FlowNode
  edges : List FlowEdge
  history : List Graph
  currentStep : Nat
deriving DecidableEq, Repr

/-- The label prefix computation charAt(0).toUpperCase() + slice(1). -/
def capitalizeJS (s : String) : String :=
  match s.toList with
  | [] => ""
  | c :: cs => String.mk (c.toUpper :: cs)

/-- Numeric value of a character as a radix digit, or 99 when it is not
a hexadecimal digit. -/
def digitVal (c : Char) : Nat :=
  if c.isDigit then c.toNat - 48
  else if "abcdef".toList.contains c then c.toNat - 87
  else if "ABCDEF".toList.contains c then c.toNat - 55
  else 99

/-- Value of a digit list read most significant first. -/
def digitsToNat (base : Nat) (ds : List Nat) : Nat :=
  ds.foldl (fun a d => a * base + d) 0

/-- The JS parseInt builtin with no radix argument, as invoked on the
last label token by handleChangeNodeType: skip leading whitespace, read
an optional sign, switch to base 16 after a 0x or 0X prefix, then take
the longest prefix of digits; none models the NaN result when no digit
was consumed. -/
def jsParseInt (s : String) : Option Int :=
  let cs := s.toList.dropWhile (fun c => c.isWhitespace)
  let signAndRest : Int × List Char :=
    match cs with
    | c :: rest => if c = Char.ofNat 45 then (-1, rest)
                   else if c = Char.ofNat 43 then (1, rest) else (1, cs)
    | [] => (1, cs)
  let sign := signAndRest.1
  let baseAndRest : Nat × List Char :=
    match signAndRest.2 with
    | c0 :: cx :: rest =>
        if c0 = Char.ofNat 48 ∧ (cx = Char.ofNat 120 ∨ cx = Char.ofNat 88) then
          (16, rest)
        else (10, signAndRest.2)
    | _ => (10, signAndRest.2)
  let ds := (baseAndRest.2.takeWhile (fun c => digitVal c < baseAndRest.1)).map digitVal
  if ds.isEmpty then none
  else some (sign * (digitsToNat baseAndRest.1 ds : Int))

/-- The projection applied by the save effect to each node before it is
written to localStorage and recorded in history (flow.tsx lines 477-490):
only id, position, type and the essential data fields are kept. -/
def projNode (n : FlowNode) : FlowNode :=
  { id := n.id
    position := n.position
    type := n.type
    data :=
      { label := n.data.label
        nodeCategory := n.data.nodeCategory
        color := n.data.color
        content := n.data.content
        customHandles := n.data.customHandles } }

/-- The projection applied by the save effect to each edge
(flow.tsx lines 492-502). -/
def projEdge (e : FlowEdge) : FlowEdge :=
  { id := e.id
    source := e.source
    target := e.target
    sourceHandle := e.sourceHandle
    targetHandle := e.targetHandle
    type := e.type
    animated := e.animated
    style := e.style }

/-- The snapshot built by the save effect from the live collections. -/
def savedGraph (s : FlowState) : Graph :=
  ⟨s.nodes.map projNode, s.edges.map projEdge⟩

/-- The history effect of flow.tsx lines 472-528, run after every change
of the nodes or edges state: build the cleaned snapshot, compare it
against the last entry of the history truncated at the cursor, and when
it differs append it and move the cursor to the appended entry. -/
def runHistoryEffect (s : FlowState) : FlowState :=
  if (s.history.take (s.currentStep + 1)).getLast? = some (savedGraph s) then s
  else
    { s with
      history := s.history.take (s.currentStep + 1) ++ [savedGraph s]
      currentStep := (s.history.take (s.currentStep + 1)).length }

/-- createNewNode (flow.tsx lines 570-583): append a fresh node whose
label counts the existing nodes of the same category, whose color is a
random palette pick (the draw is the argument k) and whose handles come
from the shape registry.  fid is the nanoid draw for the node id and fr
the draw forwarded to the registry. -/
def createNewNodeOp (s : FlowState) (nodeCat : String) (position : Pos)
    (fid : String) (k : Nat) (fr : String) : FlowState :=
  let customHandlesConfig := getDefaultHandlesForShape nodeCat fid fr
  let count := (s.nodes.filter (fun n => n.data.nodeCategory == nodeCat)).length + 1
  let newNode : FlowNode :=
    { id := fid
      type := nodeCat
      position := position
      data :=
        { label := capitalizeJS nodeCat ++ " " ++ toString count
          nodeCategory := nodeCat
          color := (COLORS.getD (k % COLORS.length) "")
          content := ""
          customHandles := customHandlesConfig } }
  runHistoryEffect { s with nodes := s.nodes ++ [newNode] }

/-- handleDeleteNode (flow.tsx lines 587-594): when the event carries a
truthy nodeId, drop the node with that id and every edge whose source or
target equals it. -/
def handleDeleteNodeOp (s : FlowState) (nodeId : String) : FlowState :=
  if nodeId = "" then s
  else
    runHistoryEffect
      { s with
        nodes := s.nodes.filter (fun n => n.id != nodeId)
        edges := s.edges.filter (fun e => e.source != nodeId && e.target != nodeId) }

/-- Character-level splitter: split a character list at every occurrence
of the separator, keeping empty segments, as the JS split of a
one-character separator string does. -/
def splitChar (sep : Char) : List Char → List (List Char)
  | [] => [[]]
  | c :: rest =>
    let r := splitChar sep rest
    if c = sep then [] :: r
    else
      match r with
      | [] => [[c]]
      | h :: t => (c :: h) :: t

/-- The JS label.split of a single space, as used on node labels:
every space is a separator and empty segments are kept. -/
def jsSplit (s : String) : List String :=
  (splitChar (Char.ofNat 32) s.toList).map (fun l => String.mk l)

/-- The per-node update performed inside handleChangeNodeType
(flow.tsx lines 596-622): nds is the node array the updater received. -/
def retypeNode (nds : List FlowNode) (nodeId newType fr : String)
    (n : FlowNode) : FlowNode :=
  if n.id = nodeId then
    let newHandles := getDefaultHandlesForShape newType n.id fr
    let currentCountForNewType :=
      (nds.filter (fun node => node.id != nodeId && node.data.nodeCategory == newType)).length
    let oldLabelParts := jsSplit n.data.label
    let oldNumber := jsParseInt (oldLabelParts.getLastD "")
    let newLabelNumber : Int :=
      match oldNumber with
      | none => (currentCountForNewType : Int) + 1
      | some v => v
    { n with
      type := newType
      data :=
        { n.data with
          label := capitalizeJS newType ++ " " ++ toString newLabelNumber
          nodeCategory := newType
          customHandles := newHandles } }
  else n

/-- handleChangeNodeType: when the event carries a truthy nodeId and
newType, map retypeNode over the node collection. -/
def handleChangeNodeTypeOp (s : FlowState) (nodeId newType fr : String) : FlowState :=
  if nodeId ≠ "" ∧ newType ≠ "" then
    runHistoryEffect { s with nodes := s.nodes.map (retypeNode s.nodes nodeId newType fr) }
  else s

/-- The reactflow Connection parameter of onConnect; null node ids are
modelled as the empty string, null handle ids as none. -/
structure Connection where
  source : String
  target : String
  sourceHandle : Option String
  targetHandle : Option String
deriving DecidableEq, Repr

/-- JS falsiness of a nullable handle id, as tested by the reactflow
connectionExists helper. -/
def handleFalsy (h : Option String) : Bool :=
  h.getD "" == ""

/-- Handle comparison used by the reactflow connectionExists helper:
strict equality, or both sides falsy. -/
def handleMatches (a b : Option String) : Bool :=
  a == b || (handleFalsy a && handleFalsy b)

/-- The reactflow connectionExists helper: some existing edge already has
the same source, target and (falsy-insensitive) handles. -/
def connectionExists (e : FlowEdge) (edges : List FlowEdge) : Bool :=
  edges.any fun el =>
    el.source == e.source && el.target == e.target &&
    handleMatches el.sourceHandle e.sourceHandle &&
    handleMatches el.targetHandle e.targetHandle

/-- The reactflow addEdge helper as invoked by onConnect: return the list
unchanged when source or target is falsy or when an identical connection
already exists, otherwise append the edge. -/
def addEdgeRF (e : FlowEdge) (edges : List FlowEdge) : List FlowEdge :=
  if e.source = "" ∨ e.target = "" then edges
  else if connectionExists e edges then edges
  else edges ++ [e]

/-- The edge literal built inside onConnect (flow.tsx lines 561-568):
the connection endpoints and handles, a fresh nanoid id fid, and the
fixed visual contract. -/
def mkConnectEdge (params : Connection) (fid : String) : FlowEdge :=
  { id := fid
    source := params.source
    target := params.target
    sourceHandle := params.sourceHandle
    targetHandle := params.targetHandle
    type := "bezier"
    animated := true
    style := { stroke := "#2563eb", strokeWidth := 2 } }

/-- onConnect: build the new edge and pass it to addEdge; no check
against the connection points of the named nodes is performed. -/
def onConnectOp (s : FlowState) (params : Connection) (fid : String) : FlowState :=
  runHistoryEffect { s with edges := addEdgeRF (mkConnectEdge params fid) s.edges }

/-- undo (flow.tsx lines 530-540): when the cursor is positive, restore
the previous history entry into the live collections and decrement the
cursor; the history effect then re-runs on the restored collections. -/
def undoOp (s : FlowState) : FlowState :=
  if 0 < s.currentStep then
    runHistoryEffect
      { s with
        nodes := (s.history.getD (s.currentStep - 1) ⟨[], []⟩).nodes
        edges := (s.history.getD (s.currentStep - 1) ⟨[], []⟩).edges
        currentStep := s.currentStep - 1 }
  else s

/-- redo (flow.tsx lines 542-552): when the cursor is before the last
entry, restore the next history entry and increment the cursor. -/
def redoOp (s : FlowState) : FlowState :=
  if s.currentStep < s.history.length - 1 then
    runHistoryEffect
      { s with
        nodes := (s.history.getD (s.currentStep + 1) ⟨[], []⟩).nodes
        edges := (s.history.getD (s.currentStep + 1) ⟨[], []⟩).edges
        currentStep := s.currentStep + 1 }
  else s

/-- One record step of the history manager: a mutation has set the live
collections to g and the history effect runs. -/
def recordCommit (s : FlowState) (g : Graph) : FlowState :=
  runHistoryEffect { s with nodes := g.nodes, edges := g.edges }

/-- The node data shape found in the persisted slot after JSON.parse.
String fields that the load effect only probes for JS falsiness carry
the empty string for a missing value; customHandles is none when missing
or not an array, mirroring the Array.isArray probe. -/
structure StoredNodeData where
  label : String
  nodeCategory : String
  color : String
  content : String
  customHandles : Option (List CHandle)
deriving DecidableEq, Repr

/-- A node record of the persisted slot; the type tag is an arbitrary
string, allowing schema drift such as a stored triangle shape. -/
structure StoredNode where
  id : String
  type : String
  position : Pos
  data : StoredNodeData
deriving DecidableEq, Repr

/-- An edge record of the persisted slot: type carries the empty string
for a missing value, animated is none when undefined (the code probes it
with an undefined check), style is none when falsy. -/
structure StoredEdge where
  id : String
  source : String
  target : String
  sourceHandle : Option String
  targetHandle : Option String
  type : String
  animated : Option Bool
  style : Option EdgeStyle
deriving DecidableEq, Repr

/-- The persisted slot payload: the object JSON.stringify receives in the
save effect and JSON.parse returns in the load effect. -/
structure StoredFlow where
  nodes : List StoredNode
  edges : List StoredEdge
deriving DecidableEq, Repr

/-- The per-node projection the save effect writes to localStorage. -/
def toStoredNode (n : FlowNode) : StoredNode :=
  { id := n.id
    type := n.type
    position := n.position
    data :=
      { label := n.data.label
        nodeCategory := n.data.nodeCategory
        color := n.data.color
        content := n.data.content
        customHandles := some n.data.customHandles } }

/-- The per-edge projection the save effect writes to localStorage. -/
def toStoredEdge (e : FlowEdge) : StoredEdge :=
  { id := e.id
    source := e.source
    target := e.target
    sourceHandle := e.sourceHandle
    targetHandle := e.targetHandle
    type := e.type
    animated := some e.animated
    style := some e.style }

/-- save: the persisted payload produced from the live collections. -/
def saveFlow (nodes : List FlowNode) (edges : List FlowEdge) : StoredFlow :=
  ⟨nodes.map toStoredNode, edges.map toStoredEdge⟩

/-- The per-node normalization of the load effect
(flow.tsx lines 431-450): resolve the category from data.nodeCategory,
else from the type tag, else rectangle; keep stored handles only when a
non-empty array was stored, else regenerate from the registry; default
color and content. -/
def loadStoredNode (fr : String) (sn : StoredNode) : FlowNode :=
  let nodeCategory :=
    if sn.data.nodeCategory ∈ AVAILABLE_SHAPES then sn.data.nodeCategory
    else if sn.type ∈ AVAILABLE_SHAPES then sn.type
    else "rectangle"
  { id := sn.id
    type := nodeCategory
    position := sn.position
    data :=
      { label := sn.data.label
        nodeCategory := nodeCategory
        customHandles :=
          match sn.data.customHandles with
          | some l => if 0 < l.length then l else getDefaultHandlesForShape nodeCategory sn.id fr
          | none => getDefaultHandlesForShape nodeCategory sn.id fr
        color := if sn.data.color = "" then COLORS.getD 0 "" else sn.data.color
        content := sn.data.content } }

/-- The per-edge normalization of the load effect
(flow.tsx lines 451-456): default the type to bezier, animated to true
and fill in the stroke defaults. -/
def loadStoredEdge (se : StoredEdge) : FlowEdge :=
  { id := se.id
    source := se.source
    target := se.target
    sourceHandle := se.sourceHandle
    targetHandle := se.targetHandle
    type := if se.type = "" then "bezier" else se.type
    animated := se.animated.getD true
    style :=
      match se.style with
      | some st =>
          { stroke := if st.stroke = "" then "#2563eb" else st.stroke
            strokeWidth := if st.strokeWidth = 0 then 2 else st.strokeWidth }
      | none => { stroke := "#2563eb", strokeWidth := 2 } }

/-- load applied to a parsed slot payload. -/
def loadFlow (fr : String) (f : StoredFlow) : Graph :=
  ⟨f.nodes.map (loadStoredNode fr), f.edges.map loadStoredEdge⟩

/-- The state of the persisted localStorage slot named flow: absent,
holding malformed JSON, or holding a parsed payload. -/
inductive Slot where
  | noSlot
  | corrupt
  | saved (f : StoredFlow)
deriving DecidableEq, Repr

/-- The empty initial snapshot. -/
def emptyGraph : Graph := ⟨[], []⟩

/-- The mount-time load effect (flow.tsx lines 423-468) together with its
catch policy, returning the initial component state and the slot after
the effect: malformed JSON is caught, logged and the slot removed, and
the component starts from the empty graph; in every case the history is
reset to a single entry holding the initial collections. -/
def initialLoad (fr : String) : Slot → FlowState × Slot
  | Slot.noSlot => (⟨[], [], [emptyGraph], 0⟩, Slot.noSlot)
  | Slot.corrupt => (⟨[], [], [emptyGraph], 0⟩, Slot.noSlot)
  | Slot.saved f =>
      let g := loadFlow fr f
      (⟨g.nodes, g.edges, [g], 0⟩, Slot.saved f)

/-- The cascade-delete invariant: every edge endpoint names a present
node. -/
def noDangling (s : FlowState) : Prop :=
  ∀ e ∈ s.edges,
    (∃ n ∈ s.nodes, n.id = e.source) ∧ (∃ n ∈ s.nodes, n.id = e.target)

instance (s : FlowState) : Decidable (noDangling s) :=
  List.decidableBAll _ s.edges

/-- A node whose render type agrees with its data category and whose
category is one of the two available shapes. -/
def nodeWellTyped (n : FlowNode) : Prop :=
  n.type = n.data.nodeCategory ∧ n.data.nodeCategory ∈ AVAILABLE_SHAPES

instance (n : FlowNode) : Decidable (nodeWellTyped n) := by
  unfold nodeWellTyped; infer_instance

/-- The node facts preserved by the save/load round trip: a known
category matching the type tag, a truthy color and a non-empty handle
list. -/
def WFNode (n : FlowNode) : Prop :=
  n.data.nodeCategory ∈ AVAILABLE_SHAPES ∧ n.type = n.data.nodeCategory ∧
  n.data.color ≠ "" ∧ n.data.customHandles ≠ []

/-- The edge facts preserved by the save/load round trip: a truthy type
tag and truthy stroke fields, as every edge the engine creates has. -/
def WFEdge (e : FlowEdge) : Prop :=
  e.type ≠ "" ∧ e.style.stroke ≠ "" ∧ e.style.strokeWidth ≠ 0

/-- The createNode/removeNode command language of the cascade-delete
claim; each create carries its nondeterministic draws. -/
inductive GraphOp where
  | create (cat : String) (position : Pos) (fid : String) (k : Nat) (fr : String)
  | remove (nodeId : String)
deriving DecidableEq, Repr

/-- Interpretation of one command. -/
def applyOp (s : FlowState) : GraphOp → FlowState
  | GraphOp.create cat position fid k fr => createNewNodeOp s cat position fid k fr
  | GraphOp.remove nodeId => handleDeleteNodeOp s nodeId

/-- Interpretation of a command sequence. -/
def applyOps (s : FlowState) (l : List GraphOp) : FlowState :=
  l.foldl applyOp s

instance (n : FlowNode) : Decidable (WFNode n) := by
  unfold WFNode; infer_instance

instance (e : FlowEdge) : Decidable (WFEdge e) := by
  unfold WFEdge; infer_instance

/-! Concrete fixtures used by counterexamples and witnesses. -/

/-- A rectangle node with id a, as createNewNode would produce it. -/
def fixRect : FlowNode :=
  ⟨"a", "rectangle", ⟨0, 0⟩,
   ⟨"Rectangle 1", "rectangle", "#2563eb", "",
    getDefaultHandlesForShape "rectangle" "a" "a"⟩⟩

/-- A circle node with id b, as createNewNode would produce it. -/
def fixCirc : FlowNode :=
  ⟨"b", "circle", ⟨200, 0⟩,
   ⟨"Circle 1", "circle", "#16a34a", "",
    getDefaultHandlesForShape "circle" "b" "b"⟩⟩

/-- A two-node state whose single history entry is its own snapshot. -/
def fixState2 : FlowState :=
  ⟨[fixRect, fixCirc], [], [⟨[fixRect, fixCirc], []⟩], 0⟩

/-- A connection naming a handle id that belongs to neither node. -/
def fixBadConn : Connection := ⟨"a", "b", some "bogus", some "b-top-target"⟩

/-- A connection between two handles that do exist on the fixture
nodes. -/
def fixGoodConn : Connection := ⟨"a", "b", some "a-right-source", some "b-top-target"⟩

/-- A rectangle node whose label carries the non-numeric last token 3x. -/
def fixLabelNode : FlowNode :=
  ⟨"n1", "rectangle", ⟨0, 0⟩,
   ⟨"Rectangle 3x", "rectangle", "#dc2626", "",
    getDefaultHandlesForShape "rectangle" "n1" "n1"⟩⟩

/-- A one-node state holding fixLabelNode. -/
def fixLabelState : FlowState :=
  ⟨[fixLabelNode], [], [⟨[fixLabelNode], []⟩], 0⟩

/-- A state one mutation past the empty initial entry, with the cursor on
the last entry: the shape every reachable state has after one create. -/
def fixHist : FlowState :=
  ⟨[fixRect], [], [emptyGraph, ⟨[fixRect], []⟩], 1⟩

/-- An edge from the rectangle fixture to the circle fixture. -/
def fixEdge : FlowEdge :=
  ⟨"e2", "a", "b", some "a-right-source", some "b-top-target", "bezier", true,
   ⟨"#2563eb", 2⟩⟩

/-- A stored node with the unrecognized shape tag triangle, no stored
handles and a missing color. -/
def fixTriangle : StoredNode :=
  ⟨"t1", "triangle", ⟨0, 0⟩, ⟨"Tri 1", "triangle", "", "", none⟩⟩

/-- The empty component state with its single empty history entry. -/
def fixEmpty : FlowState := ⟨[], [], [emptyGraph], 0⟩

/-! Helper lemmas about the projections and the history effect. -/

theorem projNode_eq (n : FlowNode) : projNode n = n := rfl

theorem projEdge_eq (e : FlowEdge) : projEdge e = e := rfl

theorem map_projNode (l : List FlowNode) : l.map projNode = l := by
  have h : projNode = id := funext fun n => projNode_eq n
  rw [h, List.map_id]

theorem map_projEdge (l : List FlowEdge) : l.map projEdge = l := by
  have h : projEdge = id := funext fun e => projEdge_eq e
  rw [h, List.map_id]

theorem savedGraph_eq (s : FlowState) : savedGraph s = ⟨s.nodes, s.edges⟩ := by
  unfold savedGraph
  rw [map_projNode, map_projEdge]

theorem effect_nodes (s : FlowState) : (runHistoryEffect s).nodes = s.nodes := by
  unfold runHistoryEffect
  split <;> rfl

theorem effect_edges (s : FlowState) : (runHistoryEffect s).edges = s.edges := by
  unfold runHistoryEffect
  split <;> rfl

theorem getLast?_take_succ {α : Type} :
    ∀ (l : List α) (i : Nat), i < l.length → (l.take (i + 1)).getLast? = l.get? i := by
  intro l
  induction l with
  | nil => intro i h; simp at h
  | cons a t ih =>
    intro i h
    cases i with
    | zero => simp
    | succ j =>
      have hj : j < t.length := by simpa using h
      cases t with
      | nil => simp at hj
      | cons b t2 =>
        have := ih j hj
        simpa [List.take, List.getLast?_cons_cons] using this

theorem effect_noop (s : FlowState)
    (h : (s.history.take (s.currentStep + 1)).getLast? = some ⟨s.nodes, s.edges⟩) :
    runHistoryEffect s = s := by
  unfold runHistoryEffect
  rw [savedGraph_eq, if_pos h]

theorem restore_entry (s : FlowState) (i : Nat) (hi : i < s.history.length)
    (g : Graph) (hg : s.history.get? i = some g) :
    runHistoryEffect { s with nodes := g.nodes, edges := g.edges, currentStep := i } =
      { s with nodes := g.nodes, edges := g.edges, currentStep := i } := by
  apply effect_noop
  show (s.history.take (i + 1)).getLast? = some ⟨g.nodes, g.edges⟩
  rw [getLast?_take_succ s.history i hi, hg]

theorem getD_of_get? {α : Type} (l : List α) (i : Nat) (d g : α)
    (hg : l.get? i = some g) : l.getD i d = g := by
  simp [List.getD_eq_getElem?_getD, ← List.get?_eq_getElem?, hg]

theorem undo_eq (s : FlowState) (hpos : 0 < s.currentStep)
    (g : Graph) (hg : s.history.get? (s.currentStep - 1) = some g)
    (hi : s.currentStep - 1 < s.history.length) :
    undoOp s = { s with nodes := g.nodes, edges := g.edges, currentStep := s.currentStep - 1 } := by
  unfold undoOp
  rw [if_pos hpos, getD_of_get? _ _ _ _ hg]
  exact restore_entry s _ hi g hg

theorem redo_eq (s : FlowState) (hlt : s.currentStep < s.history.length - 1)
    (g : Graph) (hg : s.history.get? (s.currentStep + 1) = some g) :
    redoOp s = { s with nodes := g.nodes, edges := g.edges, currentStep := s.currentStep + 1 } := by
  unfold redoOp
  rw [if_pos hlt, getD_of_get? _ _ _ _ hg]
  exact restore_entry s _ (by omega) g hg

/-- Mapping a function that fixes every element of a list is the
identity on that list. -/
theorem map_fix {α : Type} (f : α → α) :
    ∀ (l : List α), (∀ a ∈ l, f a = a) → l.map f = l := by
  intro l
  induction l with
  | nil => intro _; rfl
  | cons a t ih =>
    intro h
    have ha := h a (by simp)
    have ht := ih fun b hb => h b (by simp [hb])
    simp [ha, ht]

/-! Claim theorems. -/

/-- C1, counterexample: the claim says a circle node derives eight
default connection points; the registry returns exactly four for the
circle shape, so the eight-point layout is refuted at the concrete node
id n1. -/
theorem circle_not_eight_points :
    (getDefaultHandlesForShape "circle" "n1" "fr").length = 4 ∧
    (getDefaultHandlesForShape "circle" "n1" "fr").length ≠ 8 := by
  decide

/-- C1, amended: for every node id the circle layout has exactly four
connection points, one target on the top edge, one source on the bottom
edge, one target on the left edge and one source on the right edge, with
ids derived from the base id and fixed suffixes. -/
theorem circle_default_handles_layout (nodeId fr : String) :
    (getDefaultHandlesForShape "circle" nodeId fr).length = 4 ∧
    ((getDefaultHandlesForShape "circle" nodeId fr).filter
      (fun h => h.type == "target" && h.position == HandlePos.top)).length = 1 ∧
    ((getDefaultHandlesForShape "circle" nodeId fr).filter
      (fun h => h.type == "source" && h.position == HandlePos.bottom)).length = 1 ∧
    ((getDefaultHandlesForShape "circle" nodeId fr).filter
      (fun h => h.type == "target" && h.position == HandlePos.left)).length = 1 ∧
    ((getDefaultHandlesForShape "circle" nodeId fr).filter
      (fun h => h.type == "source" && h.position == HandlePos.right)).length = 1 ∧
    (getDefaultHandlesForShape "circle" nodeId fr).map (fun h => h.id) =
      [baseIdOf nodeId fr ++ "-top-target", baseIdOf nodeId fr ++ "-bottom-source",
       baseIdOf nodeId fr ++ "-left-target", baseIdOf nodeId fr ++ "-right-source"] := by
  refine ⟨rfl, ?_, ?_, ?_, ?_, rfl⟩ <;> rfl

/-- C9: the registry is pure and deterministic for a non-empty node id,
the internal fresh draw is irrelevant, and the rectangle layout is one
target point on the left side and one source point on the right side
with ids equal to the node id plus a fixed per-shape suffix. -/
theorem rectangle_handles_pure (shapeType nodeId fr fr2 : String) (h : nodeId ≠ "") :
    getDefaultHandlesForShape shapeType nodeId fr =
      getDefaultHandlesForShape shapeType nodeId fr2 ∧
    getDefaultHandlesForShape "rectangle" nodeId fr =
      [⟨"target", HandlePos.left, nodeId ++ "-left-target", some "50%", none⟩,
       ⟨"source", HandlePos.right, nodeId ++ "-right-source", some "50%", none⟩] := by
  have hb : ∀ x, baseIdOf nodeId x = nodeId := fun x => if_neg h
  constructor
  · simp only [getDefaultHandlesForShape, hb]
  · simp only [getDefaultHandlesForShape, hb]
    rfl

/-- C9, witness at the concrete id n1. -/
theorem rectangle_handles_pure_witness :
    getDefaultHandlesForShape "circle" "n1" "x" =
      getDefaultHandlesForShape "circle" "n1" "y" ∧
    getDefaultHandlesForShape "rectangle" "n1" "x" =
      [⟨"target", HandlePos.left, "n1" ++ "-left-target", some "50%", none⟩,
       ⟨"source", HandlePos.right, "n1" ++ "-right-source", some "50%", none⟩] :=
  ⟨(rectangle_handles_pure "circle" "n1" "x" "y" (by decide)).1,
   (rectangle_handles_pure "rectangle" "n1" "x" "y" (by decide)).2⟩

/-- C8: a corrupt persisted slot is handled by the catch of the load
effect: the slot is discarded and the component starts from the empty
graph, with the history reset to the single empty initial entry; the
load function is total, so no error escapes to the caller. -/
theorem corrupt_slot_recovery :
    (initialLoad "fr" Slot.corrupt).1.nodes = [] ∧
    (initialLoad "fr" Slot.corrupt).1.edges = [] ∧
    (initialLoad "fr" Slot.corrupt).1.history = [emptyGraph] ∧
    (initialLoad "fr" Slot.corrupt).1.currentStep = 0 ∧
    (initialLoad "fr" Slot.corrupt).2 = Slot.noSlot :=
  ⟨rfl, rfl, rfl, rfl, rfl⟩

/-- C2, counterexample: the claim says a connect call whose handle does
not belong to the named node adds no edge; onConnect performs no such
validation, and the call with the bogus source handle adds the edge. -/
theorem connect_no_validation_cex :
    ((onConnectOp fixState2 fixBadConn "e1").edges.map (fun e => e.id)) = ["e1"] ∧
    fixState2.nodes.all (fun n => n.data.customHandles.all (fun h => h.id != "bogus")) = true ∧
    (onConnectOp fixState2 fixBadConn "e1").edges ≠ [] := by
  decide

/-- C2, amended: onConnect validates nothing about handle membership: it
builds an edge carrying the connection endpoints and handles verbatim, a
fresh id and the fixed visual style, and appends it through the reactflow
addEdge helper, which skips the append exactly when the source or target
id is absent or an identical connection already exists. -/
theorem connect_appends_unvalidated (s : FlowState) (p : Connection) (fid : String) :
    (p.source ≠ "" → p.target ≠ "" →
      connectionExists (mkConnectEdge p fid) s.edges = false →
      (onConnectOp s p fid).edges = s.edges ++ [mkConnectEdge p fid])
    ∧ (p.source = "" ∨ p.target = "" → (onConnectOp s p fid).edges = s.edges)
    ∧ (connectionExists (mkConnectEdge p fid) s.edges = true →
      (onConnectOp s p fid).edges = s.edges)
    ∧ (onConnectOp s p fid).nodes = s.nodes := by
  have hbase : (onConnectOp s p fid).edges = addEdgeRF (mkConnectEdge p fid) s.edges := by
    simp only [onConnectOp, effect_edges]
  refine ⟨?_, ?_, ?_, ?_⟩
  · intro hs ht hdup
    rw [hbase]
    unfold addEdgeRF
    rw [if_neg (by exact fun hor => hor.elim hs ht), if_neg (by simp [hdup])]
  · intro hor
    rw [hbase]
    unfold addEdgeRF
    rw [if_pos
      (show (mkConnectEdge p fid).source = "" ∨ (mkConnectEdge p fid).target = "" from hor)]
  · intro hdup
    rw [hbase]
    unfold addEdgeRF
    by_cases h0 : (mkConnectEdge p fid).source = "" ∨ (mkConnectEdge p fid).target = ""
    · rw [if_pos h0]
    · rw [if_neg h0, if_pos hdup]
  · simp only [onConnectOp, effect_nodes]

/-- C2, witness at the fixture state and a connection between existing
handles. -/
theorem connect_appends_unvalidated_witness :
    (onConnectOp fixState2 fixGoodConn "e2").edges =
      fixState2.edges ++ [mkConnectEdge fixGoodConn "e2"] :=
  (connect_appends_unvalidated fixState2 fixGoodConn "e2").1
    (by decide) (by decide) (by decide)

/-- The edge collection is untouched by createNewNode. -/
theorem create_edges_eq (s : FlowState) (cat : String) (p : Pos) (fid : String)
    (k : Nat) (fr : String) : (createNewNodeOp s cat p fid k fr).edges = s.edges := by
  simp only [createNewNodeOp, effect_edges]

/-- Every node of the input survives createNewNode. -/
theorem create_nodes_mem (s : FlowState) (cat : String) (p : Pos) (fid : String)
    (k : Nat) (fr : String) (n : FlowNode) (hn : n ∈ s.nodes) :
    n ∈ (createNewNodeOp s cat p fid k fr).nodes := by
  simp only [createNewNodeOp, effect_nodes]
  exact List.mem_append_left _ hn

/-- The node collection after handleDeleteNode with a truthy id. -/
theorem delete_nodes_eq (s : FlowState) (nodeId : String) (h : nodeId ≠ "") :
    (handleDeleteNodeOp s nodeId).nodes = s.nodes.filter (fun n => n.id != nodeId) := by
  unfold handleDeleteNodeOp
  rw [if_neg h]
  exact effect_nodes _

/-- The edge collection after handleDeleteNode with a truthy id. -/
theorem delete_edges_eq (s : FlowState) (nodeId : String) (h : nodeId ≠ "") :
    (handleDeleteNodeOp s nodeId).edges =
      s.edges.filter (fun e => e.source != nodeId && e.target != nodeId) := by
  unfold handleDeleteNodeOp
  rw [if_neg h]
  exact effect_edges _

/-- createNewNode preserves the cascade-delete invariant. -/
theorem noDangling_create (s : FlowState) (cat : String) (p : Pos) (fid : String)
    (k : Nat) (fr : String) (h : noDangling s) :
    noDangling (createNewNodeOp s cat p fid k fr) := by
  intro e he
  rw [create_edges_eq] at he
  obtain ⟨⟨n1, hn1, hid1⟩, ⟨n2, hn2, hid2⟩⟩ := h e he
  exact ⟨⟨n1, create_nodes_mem s cat p fid k fr n1 hn1, hid1⟩,
         ⟨n2, create_nodes_mem s cat p fid k fr n2 hn2, hid2⟩⟩

/-- handleDeleteNode preserves the cascade-delete invariant. -/
theorem noDangling_delete (s : FlowState) (nodeId : String) (h : noDangling s) :
    noDangling (handleDeleteNodeOp s nodeId) := by
  by_cases h0 : nodeId = ""
  · unfold handleDeleteNodeOp
    rw [if_pos h0]
    exact h
  · intro e he
    rw [delete_edges_eq s nodeId h0] at he
    rw [List.mem_filter] at he
    obtain ⟨hes, hpred⟩ := he
    rw [Bool.and_eq_true, bne_iff_ne, bne_iff_ne] at hpred
    obtain ⟨⟨n1, hn1, hid1⟩, ⟨n2, hn2, hid2⟩⟩ := h e hes
    rw [delete_nodes_eq s nodeId h0]
    constructor
    · exact ⟨n1, List.mem_filter.mpr ⟨hn1, by rw [bne_iff_ne, hid1]; exact hpred.1⟩, hid1⟩
    · exact ⟨n2, List.mem_filter.mpr ⟨hn2, by rw [bne_iff_ne, hid2]; exact hpred.2⟩, hid2⟩

/-- C3: handleDeleteNode removes the named node and every edge whose
source or target equals it; it is a no-op on the collections when no
node carries the id and no edge dangles; and the cascade-delete
invariant holds along every createNode/removeNode command sequence. -/
theorem remove_cascade_invariant :
    (∀ (s : FlowState) (nodeId : String), nodeId ≠ "" →
      (handleDeleteNodeOp s nodeId).nodes = s.nodes.filter (fun n => n.id != nodeId) ∧
      (handleDeleteNodeOp s nodeId).edges =
        s.edges.filter (fun e => e.source != nodeId && e.target != nodeId))
    ∧ (∀ (s : FlowState) (nodeId : String),
      (∀ n ∈ s.nodes, n.id ≠ nodeId) → noDangling s →
      (handleDeleteNodeOp s nodeId).nodes = s.nodes ∧
      (handleDeleteNodeOp s nodeId).edges = s.edges)
    ∧ (∀ (s : FlowState) (l : List GraphOp),
      noDangling s → noDangling (applyOps s l)) := by
  refine ⟨?_, ?_, ?_⟩
  · intro s nodeId h
    exact ⟨delete_nodes_eq s nodeId h, delete_edges_eq s nodeId h⟩
  · intro s nodeId hno hdang
    by_cases h0 : nodeId = ""
    · unfold handleDeleteNodeOp
      rw [if_pos h0]
      exact ⟨rfl, rfl⟩
    · constructor
      · rw [delete_nodes_eq s nodeId h0]
        apply List.filter_eq_self.mpr
        intro n hn
        rw [bne_iff_ne]
        exact hno n hn
      · rw [delete_edges_eq s nodeId h0]
        apply List.filter_eq_self.mpr
        intro e he
        obtain ⟨⟨n1, hn1, hid1⟩, ⟨n2, hn2, hid2⟩⟩ := hdang e he
        rw [Bool.and_eq_true, bne_iff_ne, bne_iff_ne]
        exact ⟨hid1 ▸ hno n1 hn1, hid2 ▸ hno n2 hn2⟩
  · intro s l
    induction l generalizing s with
    | nil => intro h; exact h
    | cons op t ih =>
      intro h
      have hstep : noDangling (applyOp s op) := by
        cases op with
        | create cat p fid k fr => exact noDangling_create s cat p fid k fr h
        | remove nodeId => exact noDangling_delete s nodeId h
      exact ih (applyOp s op) hstep

/-- C3, witness: a create/create/remove sequence from the empty state
keeps the invariant, and a concrete deletion filters nodes and edges. -/
theorem remove_cascade_invariant_witness :
    noDangling (applyOps fixEmpty
      [GraphOp.create "rectangle" ⟨0, 0⟩ "a" 0 "a",
       GraphOp.create "circle" ⟨200, 0⟩ "b" 1 "b",
       GraphOp.remove "a"]) ∧
    (handleDeleteNodeOp fixState2 "a").nodes =
      fixState2.nodes.filter (fun n => n.id != "a") :=
  ⟨remove_cascade_invariant.2.2 fixEmpty _ (by decide),
   (remove_cascade_invariant.1 fixState2 "a" (by decide)).1⟩

/-- C10: every operation that produces or rewrites a node keeps the
render type equal to data.nodeCategory and inside the available shape
set: createNewNode with a shape argument from the set, handleChangeNodeType
with a shape argument from the set, and the load normalization
unconditionally. -/
theorem node_type_category_invariant :
    (∀ (s : FlowState) (cat : String) (p : Pos) (fid : String) (k : Nat) (fr : String),
      cat ∈ AVAILABLE_SHAPES → (∀ n ∈ s.nodes, nodeWellTyped n) →
      ∀ n ∈ (createNewNodeOp s cat p fid k fr).nodes, nodeWellTyped n)
    ∧ (∀ (s : FlowState) (nodeId newType fr : String),
      newType ∈ AVAILABLE_SHAPES → (∀ n ∈ s.nodes, nodeWellTyped n) →
      ∀ n ∈ (handleChangeNodeTypeOp s nodeId newType fr).nodes, nodeWellTyped n)
    ∧ (∀ (fr : String) (sn : StoredNode), nodeWellTyped (loadStoredNode fr sn)) := by
  refine ⟨?_, ?_, ?_⟩
  · intro s cat p fid k fr hcat hall n hn
    simp only [createNewNodeOp, effect_nodes] at hn
    rw [List.mem_append] at hn
    cases hn with
    | inl h => exact hall n h
    | inr h =>
      rw [List.mem_singleton] at h
      subst h
      exact ⟨rfl, hcat⟩
  · intro s nodeId newType fr hshape hall n hn
    by_cases hg : nodeId ≠ "" ∧ newType ≠ ""
    · unfold handleChangeNodeTypeOp at hn
      rw [if_pos hg, effect_nodes] at hn
      rw [List.mem_map] at hn
      obtain ⟨m, hm, hmap⟩ := hn
      subst hmap
      unfold retypeNode
      by_cases hid : m.id = nodeId
      · rw [if_pos hid]
        exact ⟨rfl, hshape⟩
      · rw [if_neg hid]
        exact hall m hm
    · unfold handleChangeNodeTypeOp at hn
      rw [if_neg hg] at hn
      exact hall n hn
  · intro fr sn
    unfold loadStoredNode nodeWellTyped
    refine ⟨rfl, ?_⟩
    by_cases h1 : sn.data.nodeCategory ∈ AVAILABLE_SHAPES
    · simp only [if_pos h1]
      exact h1
    · by_cases h2 : sn.type ∈ AVAILABLE_SHAPES
      · simp only [if_neg h1, if_pos h2]
        exact h2
      · simp only [if_neg h1, if_neg h2]
        decide

/-- C10, witness: the created rectangle fixture node and the normalized
triangle node are well typed. -/
theorem node_type_category_invariant_witness :
    nodeWellTyped fixRect ∧ nodeWellTyped (loadStoredNode "z" fixTriangle) :=
  ⟨node_type_category_invariant.1 fixEmpty "rectangle" ⟨0, 0⟩ "a" 0 "a"
      (by decide) (fun n hn => absurd hn (List.not_mem_nil n)) fixRect (by decide),
   node_type_category_invariant.2.2 "z" fixTriangle⟩

/-- C7, counterexample: the old label Rectangle 3x does not end in a
numeric suffix and no circle node exists, so the claim prescribes the
next sequential label Circle 1; the code parses the leading digits of
the last token with parseInt and produces Circle 3. -/
theorem change_shape_label_cex :
    ((handleChangeNodeTypeOp fixLabelState "n1" "circle" "f").nodes.map
      (fun n => n.data.label)) = ["Circle 3"] ∧
    fixLabelState.nodes.all (fun m => m.data.nodeCategory != "circle") = true ∧
    "Rectangle 3x".toList.getLast? = some (Char.ofNat 120) ∧
    ((handleChangeNodeTypeOp fixLabelState "n1" "circle" "f").nodes.map
      (fun n => n.data.label)) ≠ ["Circle 1"] := by
  decide

/-- C7, amended: handleChangeNodeType is a no-op on the node collection
when no node carries the id; on a hit it regenerates the connection
points from the new shape, rewrites the type and category, and numbers
the label with the parseInt value of the last whitespace token of the
old label when that token parses (so leading digits are kept even when
trailing text follows), otherwise with one plus the count of other nodes
already of the new shape; edges are never touched. -/
theorem change_shape_behavior (s : FlowState) (nodeId newType fr : String) :
    ((∀ n ∈ s.nodes, n.id ≠ nodeId) →
      (handleChangeNodeTypeOp s nodeId newType fr).nodes = s.nodes)
    ∧ (nodeId ≠ "" → newType ≠ "" →
      ∀ n ∈ s.nodes, n.id = nodeId →
      ({ n with
         type := newType
         data := { n.data with
           label := capitalizeJS newType ++ " " ++
             toString
               (match jsParseInt ((jsSplit n.data.label).getLastD "") with
                | none =>
                    ((s.nodes.filter
                      (fun (node : FlowNode) => node.id != nodeId &&
                        node.data.nodeCategory == newType)).length : Int) + 1
                | some v => v)
           nodeCategory := newType
           customHandles := getDefaultHandlesForShape newType n.id fr } } : FlowNode)
        ∈ (handleChangeNodeTypeOp s nodeId newType fr).nodes)
    ∧ (handleChangeNodeTypeOp s nodeId newType fr).edges = s.edges := by
  refine ⟨?_, ?_, ?_⟩
  · intro hno
    by_cases hg : nodeId ≠ "" ∧ newType ≠ ""
    · unfold handleChangeNodeTypeOp
      rw [if_pos hg, effect_nodes]
      apply map_fix
      intro a ha
      unfold retypeNode
      rw [if_neg (hno a ha)]
    · unfold handleChangeNodeTypeOp
      rw [if_neg hg]
  · intro h1 h2 n hn hid
    unfold handleChangeNodeTypeOp
    rw [if_pos ⟨h1, h2⟩, effect_nodes]
    refine List.mem_map.mpr ⟨n, hn, ?_⟩
    unfold retypeNode
    rw [if_pos hid]
  · by_cases hg : nodeId ≠ "" ∧ newType ≠ ""
    · unfold handleChangeNodeTypeOp
      rw [if_pos hg]
      exact effect_edges _
    · unfold handleChangeNodeTypeOp
      rw [if_neg hg]

/-- C7, witness: changing the fixture node to a circle yields the
updated node among the results; the spec scenario label arithmetic and
the four regenerated handles are checked on it. -/
theorem change_shape_behavior_witness :
    ({ fixLabelNode with
       type := "circle"
       data := { fixLabelNode.data with
         label := "Circle 3"
         nodeCategory := "circle"
         customHandles := getDefaultHandlesForShape "circle" fixLabelNode.id "f" } } : FlowNode)
      ∈ (handleChangeNodeTypeOp fixLabelState "n1" "circle" "f").nodes :=
  (change_shape_behavior fixLabelState "n1" "circle" "f").2.1
    (by decide) (by decide) fixLabelNode (by decide) rfl

/-- C4: on any state satisfying the history invariant (the cursor is in
range and the entry at the cursor is the live snapshot), undo followed by
redo restores the exact state that was live before the undo; undo is a
no-op at cursor zero and redo is a no-op at the last entry. -/
theorem undo_redo_roundtrip (s : FlowState)
    (hlen : s.currentStep < s.history.length)
    (hcur : s.history.get? s.currentStep = some ⟨s.nodes, s.edges⟩) :
    (0 < s.currentStep → redoOp (undoOp s) = s)
    ∧ (s.currentStep = 0 → undoOp s = s)
    ∧ (s.currentStep = s.history.length - 1 → redoOp s = s) := by
  refine ⟨?_, ?_, ?_⟩
  · intro hpos
    have hi : s.currentStep - 1 < s.history.length := by omega
    obtain ⟨g, hg⟩ : ∃ g, s.history.get? (s.currentStep - 1) = some g :=
      ⟨_, List.get?_eq_get hi⟩
    rw [undo_eq s hpos g hg hi]
    have e1 : s.currentStep - 1 + 1 = s.currentStep := by omega
    have hlt : s.currentStep - 1 < s.history.length - 1 := by omega
    have hg2 : s.history.get? (s.currentStep - 1 + 1) = some (⟨s.nodes, s.edges⟩ : Graph) := by
      rw [e1]; exact hcur
    rw [redo_eq _ hlt ⟨s.nodes, s.edges⟩ hg2]
    rw [e1]
  · intro h0
    unfold undoOp
    rw [if_neg (by omega)]
  · intro hl
    unfold redoOp
    rw [if_neg (by omega)]

/-- C4, witness at a state one create past the initial entry. -/
theorem undo_redo_roundtrip_witness :
    redoOp (undoOp fixHist) = fixHist ∧ redoOp fixHist = fixHist :=
  ⟨(undo_redo_roundtrip fixHist (by decide) (by decide)).1 (by decide),
   (undo_redo_roundtrip fixHist (by decide) (by decide)).2.2 (by decide)⟩

/-- The history effect when the snapshot differs from the entry at the
cursor: truncate after the cursor, append, move the cursor. -/
theorem effect_append (s : FlowState)
    (hlen : s.currentStep < s.history.length)
    (hmiss : s.history.get? s.currentStep ≠ some (savedGraph s)) :
    runHistoryEffect s =
      { s with
        history := s.history.take (s.currentStep + 1) ++ [savedGraph s]
        currentStep := s.currentStep + 1 } := by
  unfold runHistoryEffect
  rw [if_neg (by rw [getLast?_take_succ _ _ hlen]; exact hmiss)]
  have hl : (s.history.take (s.currentStep + 1)).length = s.currentStep + 1 := by
    rw [List.length_take]; omega
  rw [hl]

/-- A record step whose snapshot equals the entry at the cursor only
resets the live collections. -/
theorem record_hit (s : FlowState) (g : Graph)
    (hlen : s.currentStep < s.history.length)
    (hhit : s.history.get? s.currentStep = some g) :
    recordCommit s g = { s with nodes := g.nodes, edges := g.edges } := by
  unfold recordCommit
  exact restore_entry s s.currentStep hlen g hhit

/-- A record step whose snapshot differs from the entry at the cursor
truncates, appends and advances the cursor. -/
theorem record_miss (s : FlowState) (g : Graph)
    (hlen : s.currentStep < s.history.length)
    (hmiss : s.history.get? s.currentStep ≠ some g) :
    recordCommit s g =
      { s with
        nodes := g.nodes
        edges := g.edges
        history := s.history.take (s.currentStep + 1) ++ [g]
        currentStep := s.currentStep + 1 } := by
  unfold recordCommit
  have happ := effect_append { s with nodes := g.nodes, edges := g.edges }
    (by exact hlen)
    (by rw [savedGraph_eq]; exact fun hc => hmiss hc)
  rw [happ, savedGraph_eq]

/-- C6: recording a snapshot structurally equal to the entry at the
cursor leaves the history and cursor unchanged, and a repeated record of
the same snapshot never changes the state again; a distinct snapshot
truncates the entries to the cursor, appends, and leaves the cursor on
the new last index. -/
theorem record_dedup_law (s : FlowState) (g : Graph)
    (hlen : s.currentStep < s.history.length) :
    (s.history.get? s.currentStep = some g →
      (recordCommit s g).history = s.history ∧
      (recordCommit s g).currentStep = s.currentStep)
    ∧ (s.history.get? s.currentStep ≠ some g →
      (recordCommit s g).history = s.history.take (s.currentStep + 1) ++ [g] ∧
      (recordCommit s g).currentStep = s.currentStep + 1 ∧
      (recordCommit s g).currentStep + 1 = (recordCommit s g).history.length)
    ∧ recordCommit (recordCommit s g) g = recordCommit s g := by
  refine ⟨?_, ?_, ?_⟩
  · intro hhit
    rw [record_hit s g hlen hhit]
    exact ⟨rfl, rfl⟩
  · intro hmiss
    rw [record_miss s g hlen hmiss]
    refine ⟨rfl, rfl, ?_⟩
    show s.currentStep + 1 + 1 = (s.history.take (s.currentStep + 1) ++ [g]).length
    rw [List.length_append, List.length_take]
    simp
    omega
  · by_cases hhit : s.history.get? s.currentStep = some g
    · rw [record_hit s g hlen hhit]
      have hlen2 : ({ s with nodes := g.nodes, edges := g.edges } : FlowState).currentStep <
          ({ s with nodes := g.nodes, edges := g.edges } : FlowState).history.length := hlen
      have hhit2 : ({ s with nodes := g.nodes, edges := g.edges } : FlowState).history.get?
          ({ s with nodes := g.nodes, edges := g.edges } : FlowState).currentStep = some g := hhit
      rw [record_hit _ g hlen2 hhit2]
    · rw [record_miss s g hlen hhit]
      have hlen2 : s.currentStep + 1 < (s.history.take (s.currentStep + 1) ++ [g]).length := by
        rw [List.length_append, List.length_take]
        simp
        omega
      have hget2 : (s.history.take (s.currentStep + 1) ++ [g]).get? (s.currentStep + 1) = some g := by
        rw [List.get?_append_right (by rw [List.length_take]; omega)]
        rw [List.length_take]
        have harith : s.currentStep + 1 - min (s.currentStep + 1) s.history.length = 0 := by
          omega
        rw [harith]
        rfl
      exact record_hit
        { s with
          nodes := g.nodes
          edges := g.edges
          history := s.history.take (s.currentStep + 1) ++ [g]
          currentStep := s.currentStep + 1 } g (by exact hlen2) (by exact hget2)

/-- C6, witness: at the empty initial state, recording a distinct
snapshot appends it, and recording it again changes nothing. -/
theorem record_dedup_law_witness :
    (recordCommit fixEmpty ⟨[fixRect], []⟩).history =
      fixEmpty.history.take 1 ++ [⟨[fixRect], []⟩] ∧
    recordCommit (recordCommit fixEmpty ⟨[fixRect], []⟩) ⟨[fixRect], []⟩ =
      recordCommit fixEmpty ⟨[fixRect], []⟩ :=
  ⟨((record_dedup_law fixEmpty ⟨[fixRect], []⟩ (by decide)).2.1 (by decide)).1,
   (record_dedup_law fixEmpty ⟨[fixRect], []⟩ (by decide)).2.2⟩

/-- A well-formed node survives the save projection and the load
normalization unchanged. -/
theorem load_save_node (fr : String) (n : FlowNode) (h : WFNode n) :
    loadStoredNode fr (toStoredNode n) = n := by
  obtain ⟨h1, h2, h3, h4⟩ := h
  obtain ⟨nid, nty, npos, nl, nc, ncol, ncont, nh⟩ := n
  simp only at h1 h2 h3 h4
  subst h2
  simp [loadStoredNode, toStoredNode, h1, h3, List.length_pos.mpr h4]

/-- A well-formed edge survives the save projection and the load
normalization unchanged. -/
theorem load_save_edge (e : FlowEdge) (h : WFEdge e) :
    loadStoredEdge (toStoredEdge e) = e := by
  obtain ⟨h1, h2, h3⟩ := h
  obtain ⟨eid, esrc, etgt, esh, eth, ety, ean, stk, sw⟩ := e
  simp only at h1 h2 h3
  simp [loadStoredEdge, toStoredEdge, h1, h2, h3]

/-- C5: save followed by load reproduces the graph exactly on every
well-formed collection; the endpoint and handle fields of every edge are
reproduced unconditionally; and a stored node with unrecognized category
and type tags is normalized to rectangle, regenerating its connection
points from the registry when none or an empty sequence was stored. -/
theorem save_load_roundtrip_law :
    (∀ (fr : String) (ns : List FlowNode) (es : List FlowEdge),
      (∀ n ∈ ns, WFNode n) → (∀ e ∈ es, WFEdge e) →
      loadFlow fr (saveFlow ns es) = ⟨ns, es⟩)
    ∧ (∀ (e : FlowEdge),
      (loadStoredEdge (toStoredEdge e)).id = e.id ∧
      (loadStoredEdge (toStoredEdge e)).source = e.source ∧
      (loadStoredEdge (toStoredEdge e)).target = e.target ∧
      (loadStoredEdge (toStoredEdge e)).sourceHandle = e.sourceHandle ∧
      (loadStoredEdge (toStoredEdge e)).targetHandle = e.targetHandle)
    ∧ (∀ (fr : String) (sn : StoredNode),
      sn.data.nodeCategory ∉ AVAILABLE_SHAPES → sn.type ∉ AVAILABLE_SHAPES →
      (loadStoredNode fr sn).type = "rectangle" ∧
      (loadStoredNode fr sn).data.nodeCategory = "rectangle" ∧
      ((sn.data.customHandles = none ∨ sn.data.customHandles = some []) →
        (loadStoredNode fr sn).data.customHandles =
          getDefaultHandlesForShape "rectangle" sn.id fr)) := by
  refine ⟨?_, ?_, ?_⟩
  · intro fr ns es hn he
    unfold loadFlow saveFlow
    congr 1
    · rw [List.map_map]
      exact map_fix _ ns (fun n hnn => load_save_node fr n (hn n hnn))
    · rw [List.map_map]
      exact map_fix _ es (fun e hee => load_save_edge e (he e hee))
  · intro e
    exact ⟨rfl, rfl, rfl, rfl, rfl⟩
  · intro fr sn h1 h2
    unfold loadStoredNode
    simp only [if_neg h1, if_neg h2]
    refine ⟨trivial, trivial, ?_⟩
    intro hemp
    cases hemp with
    | inl h => rw [h]
    | inr h => rw [h]; exact rfl

/-- C5, witness: the fixture graph round-trips, and the stored triangle
node normalizes to a rectangle with regenerated connection points. -/
theorem save_load_roundtrip_law_witness :
    loadFlow "z" (saveFlow [fixRect] [fixEdge]) = ⟨[fixRect], [fixEdge]⟩ ∧
    (loadStoredNode "z" fixTriangle).data.nodeCategory = "rectangle" ∧
    (loadStoredNode "z" fixTriangle).data.customHandles =
      getDefaultHandlesForShape "rectangle" fixTriangle.id "z" :=
  ⟨save_load_roundtrip_law.1 "z" [fixRect] [fixEdge] (by decide) (by decide),
   (save_load_roundtrip_law.2.2 "z" fixTriangle (by decide) (by decide)).2.1,
   (save_load_roundtrip_law.2.2 "z" fixTriangle (by decide) (by decide)).2.2 (Or.inl rfl)⟩

end FlowEd
